import Mathlib

/-!
Verification of the asbplayer content-script core (`extension/src/video.ts`)
and the subtitle-window helper (`surroundingSubtitles`).

The embedding is shallow: DOM video elements become records carrying the
fields the code inspects (node identity, `src`, child `<source>` elements);
the discovery loop's mutable `bindings` array becomes explicit state threaded
through `addVideoBindings` / `removeStaleBindings`; the extension message
listener becomes a pure function from an inbound envelope to the list of
side effects it performs plus its boolean return value; promise chains become
values in an explicit resolved/rejected result type.
-/

namespace Asbplayer

/-- Model of a child element of a `<video>` node: the discovery code reads
only `tagName` and `src` (video.ts lines 49-54). -/
structure SourceChild where
  tagName : String
  src : String
deriving DecidableEq, Repr

/-- Model of a `<video>` DOM element. `nodeId` models DOM node identity
(`isSameNode`); `src` is the direct `src` attribute, with `""` standing for
an absent/empty attribute (falsy in JS); `children` are the element's child
nodes. -/
structure VideoElement where
  nodeId : Nat
  src : String
  children : List SourceChild
deriving DecidableEq, Repr

/-- Translation of `hasValidVideoSource` (video.ts lines 44-58): the element
has a truthy direct `src`, or some child is a `SOURCE` tag with a truthy
`src`.  The early-returning `for` loop over `children` is `List.any`. -/
def hasValidVideoSource (videoElement : VideoElement) : Bool :=
  if videoElement.src != "" then
    true
  else
    videoElement.children.any fun elm => elm.tagName == "SOURCE" && elm.src != ""

/-- State owned by the discovery loop.  `bindings` is the `bindings` array;
each entry is `(serial, nodeId)` where `serial` is a unique identifier for
the Binding instance (used to count bind/unbind calls) and `nodeId` the
identity of `b.video`.  `created` and `unbound` log, in order, the serials
of Binding instances whose `bind()` resp. `unbind()` has been called. -/
structure DiscoveryState where
  bindings : List (Nat × Nat)
  nextSerial : Nat
  created : List Nat
  unbound : List Nat
deriving DecidableEq, Repr

/-- Discovery state at page bind time: empty `bindings` array, nothing yet
created or unbound. -/
def initState : DiscoveryState := ⟨[], 0, [], []⟩

/-- Translation of `bindings.filter((b) => b.video.isSameNode(videoElement)).length > 0`
(video.ts line 82). -/
def bindingExistsFor (bindings : List (Nat × Nat)) (nodeId : Nat) : Bool :=
  decide ((bindings.filter fun b => b.2 == nodeId).length > 0)

/-- Translation of the first loop of `bindToVideoElements` (video.ts lines
80-89): walk the enumerated video elements in order; for each one with no
existing binding that has a valid source and is not ignored by the page
delegate, create a Binding (fresh serial), call `bind()` on it (log the
serial in `created`) and push it onto `bindings`. -/
def addVideoBindings (shouldIgnore : VideoElement → Bool) :
    List VideoElement → DiscoveryState → DiscoveryState
  | [], s => s
  | videoElement :: rest, s =>
    if !bindingExistsFor s.bindings videoElement.nodeId
        && hasValidVideoSource videoElement && !shouldIgnore videoElement then
      addVideoBindings shouldIgnore rest
        { s with
          bindings := s.bindings ++ [(s.nextSerial, videoElement.nodeId)],
          nextSerial := s.nextSerial + 1,
          created := s.created ++ [s.nextSerial] }
    else
      addVideoBindings shouldIgnore rest s

/-- Translation of the inner existence check of the second loop (video.ts
lines 93-102): the binding's element is still in the enumerated collection
(same node) and still has a valid source. -/
def videoElementExistsFor (videoElements : List VideoElement) (b : Nat × Nat) : Bool :=
  videoElements.any fun videoElement =>
    videoElement.nodeId == b.2 && hasValidVideoSource videoElement

/-- Translation of the second loop of `bindToVideoElements` (video.ts lines
91-108): iterate the bindings array backwards, and `splice` out and `unbind()`
every binding whose element no longer exists or is no longer valid.  Backward
iteration with in-place `splice` keeps every retained element and preserves
their order, i.e. it is `List.filter`; the removed bindings are unbound in
backward order, hence the `reverse` in the `unbound` log. -/
def removeStaleBindings (videoElements : List VideoElement) (s : DiscoveryState) :
    DiscoveryState :=
  { s with
    bindings := s.bindings.filter (videoElementExistsFor videoElements),
    unbound := s.unbound ++
      ((s.bindings.filter fun b => !videoElementExistsFor videoElements b).reverse.map Prod.fst) }

/-- Translation of one execution of `bindToVideoElements` (video.ts lines
77-115) without the broadcaster update: additions first, then the backward
removal sweep. -/
def bindToVideoElements (shouldIgnore : VideoElement → Bool)
    (videoElements : List VideoElement) (s : DiscoveryState) : DiscoveryState :=
  removeStaleBindings videoElements (addVideoBindings shouldIgnore videoElements s)

/-- Run the startup reconciliation pass and the subsequent discovery ticks:
`doms` is the list of DOM snapshots observed at the successive ticks (the
DOM may mutate arbitrarily between ticks). -/
def runTicks (shouldIgnore : VideoElement → Bool)
    (doms : List (List VideoElement)) : DiscoveryState :=
  doms.foldl (fun s dom => bindToVideoElements shouldIgnore dom s) initState

/-- Translation of the `beforeunload` handler's binding teardown (video.ts
lines 194-199): `unbind()` every binding still in the array, then clear it. -/
def unloadBindings (s : DiscoveryState) : DiscoveryState :=
  { s with
    bindings := [],
    unbound := s.unbound ++ s.bindings.map Prod.fst }

/-- Translation of the broadcaster update at the end of `bindToVideoElements`
(video.ts lines 110-114).  `frameInfoBroadcaster` exists exactly in a child
document (lines 66-75), so in the parent the optional-chained calls are
no-ops; in a child, `unbind()` leaves it inactive and `bind()` active. -/
def updateBroadcaster (isChildDocument : Bool) (s : DiscoveryState)
    (broadcasterBound : Bool) : Bool :=
  if isChildDocument then
    if s.bindings.length = 0 then false else true
  else
    broadcasterBound

/-- One full discovery tick including the broadcaster update: reconcile the
bindings, then decide broadcaster state from the post-reconciliation count. -/
def tickWithBroadcaster (isChildDocument : Bool) (shouldIgnore : VideoElement → Bool)
    (videoElements : List VideoElement) :
    DiscoveryState × Bool → DiscoveryState × Bool
  | (s, broadcasterBound) =>
    let s2 := bindToVideoElements shouldIgnore videoElements s
    (s2, updateBroadcaster isChildDocument s2 broadcasterBound)

/-- Capture rectangle as carried by crop-and-resize messages and produced by
`getBoundingClientRect` (coordinates modelled as integers; the code only
copies and adds them). -/
structure Rect where
  left : Int
  top : Int
  width : Int
  height : Int
deriving DecidableEq, Repr

/-- Payloads of inbound `request.message` values, discriminated by
`message.command` (video.ts lines 143-189).  `unknown` covers every other
command string, handled by the `default` branch. -/
inductive VideoMessage where
  | copyToClipboard (dataUrl : String)
  | cropAndResize (maxWidth maxHeight : Int) (rect : Rect) (dataUrl : String)
      (frameId : Option Nat)
  | showAnkiUi
  | settingsUpdated
  | unknown (command : String)
deriving DecidableEq, Repr

/-- Inbound command envelope: `{sender, message, src?}`.  `src` is read only
by the show-anki-ui branch (video.ts line 178). -/
structure CommandEnvelope where
  sender : String
  message : VideoMessage
  src : Option String
deriving DecidableEq, Repr

/-- Observable side effects the message listener can perform, in order.
`dispatchCropAndResize` records the exact arguments passed to the
`cropAndResize` image transform (video.ts lines 170-175). -/
inductive ListenerEffect where
  | fetchAndWriteClipboard (dataUrl : String)
  | dispatchCropAndResize (maxWidth maxHeight : Int) (rect : Rect) (dataUrl : String)
  | showTabAnkiUi
  | rebindToggleSidePanel
  | updateAnkiSettings
deriving DecidableEq, Repr

/-- Translation of `messageListener` (video.ts lines 129-190).  The frame
registry argument models `frameInfoListener?.iframesById`: `none` when no
listener exists (child document), otherwise a partial map from frameId to
the registered iframe's bounding client rect.  The result is the list of
side effects performed plus the listener's return value (`true` means an
asynchronous `sendResponse` will arrive; the other paths return
`undefined`, modelled `false`). -/
def messageListener (isParentDocument : Bool)
    (iframesById : Option (Nat → Option Rect))
    (request : CommandEnvelope) : List ListenerEffect × Bool :=
  if !isParentDocument then
    ([], false)
  else if request.sender != "asbplayer-extension-to-video" then
    ([], false)
  else
    match request.message with
    | .copyToClipboard dataUrl =>
      ([.fetchAndWriteClipboard dataUrl], false)
    | .cropAndResize maxWidth maxHeight rect dataUrl frameId =>
      let rect2 :=
        match frameId with
        | none => rect
        | some fid =>
          match iframesById.bind fun m => m fid with
          | none => rect
          | some iframeRect =>
            { left := rect.left + iframeRect.left,
              top := rect.top + iframeRect.top,
              width := rect.width,
              height := rect.height }
      ([.dispatchCropAndResize maxWidth maxHeight rect2 dataUrl], true)
    | .showAnkiUi =>
      if request.src = none then ([.showTabAnkiUi], false) else ([], false)
    | .settingsUpdated =>
      ([.rebindToggleSidePanel, .updateAnkiSettings], false)
    | .unknown _ =>
      ([], false)

/-- Heap-explicit model of the rect handling in the crop-and-resize branch
(video.ts lines 154-168): rect objects live in a store addressed by `Nat`;
`msgRectAddr` is the address of the envelope's `rect` object.  When a frame
translation applies, the code builds a *fresh* object literal at a fresh
address rather than assigning to the message's rect; the function returns
the updated store and the address of the rect handed to `cropAndResize`. -/
def handleCropRectStore (store : Nat → Rect) (freshAddr msgRectAddr : Nat)
    (registeredIframeRect : Option Rect) : (Nat → Rect) × Nat :=
  match registeredIframeRect with
  | none => (store, msgRectAddr)
  | some iframeRect =>
    let r := store msgRectAddr
    (fun a =>
      if a = freshAddr then
        { left := r.left + iframeRect.left, top := r.top + iframeRect.top,
          width := r.width, height := r.height }
      else store a,
     freshAddr)

/-- Settled outcome of a promise: fulfilled with a value, or rejected. -/
inductive PromiseResult (α : Type) where
  | ok (value : α)
  | err (reason : String)
deriving DecidableEq, Repr

/-- Semantics of `.then(f)` on a settled promise: a rejection propagates past
the fulfillment handler. -/
def promiseThen {α β : Type} : PromiseResult α → (α → PromiseResult β) → PromiseResult β
  | .ok v, f => f v
  | .err e, _ => .err e

/-- Semantics of `.catch(h)` on a settled promise: a rejection is handled and
the chain continues fulfilled. -/
def promiseCatch {α : Type} : PromiseResult α → (String → α) → PromiseResult α
  | .ok v, _ => .ok v
  | .err e, h => .ok (h e)

/-- Translation of the copy-to-clipboard promise chain (video.ts lines
146-150): `fetch(dataUrl).then((response) => response.blob()).then((blob) =>
navigator.clipboard.write([...]).catch(console.error))`.  Responses and
blobs are abstracted as strings; `console.error` handles the rejection and
yields `()`.  Only the clipboard write carries a `catch`. -/
def copyToClipboardChain (fetchResult : PromiseResult String)
    (toBlob : String → PromiseResult String)
    (clipboardWrite : String → PromiseResult Unit) : PromiseResult Unit :=
  promiseThen (promiseThen fetchResult toBlob) fun blob =>
    promiseCatch (clipboardWrite blob) fun _ => ()

/-- State of the side-panel key binding machinery.  `listeners` is the set
(as an ordered list) of handler registrations currently installed in the key
binder; `current` models the module-level `unbindToggleSidePanel` variable
(the handler the stored unbind closure would release); `nextHandlerId`
numbers new handlers. -/
structure KeyBinderState where
  listeners : List Nat
  current : Option Nat
  nextHandlerId : Nat
deriving DecidableEq, Repr

/-- Key binder state at page bind time: no handler installed,
`unbindToggleSidePanel` undefined. -/
def initKeyBinderState : KeyBinderState := ⟨[], none, 0⟩

/-- Translation of `unbindToggleSidePanel?.()` (video.ts line 24): if the
variable holds an unbind closure, invoking it removes that closure's handler
from the key binder; otherwise nothing happens. -/
def releaseToggleSidePanel (s : KeyBinderState) : KeyBinderState :=
  match s.current with
  | none => s
  | some id => { s with listeners := s.listeners.erase id }

/-- Translation of `unbindToggleSidePanel = new DefaultKeyBinder(keyBindSet)
.bindToggleSidePanel(...)` (video.ts lines 25-40): install a fresh handler
and store its unbind closure in the module-level variable. -/
def installToggleSidePanel (s : KeyBinderState) : KeyBinderState :=
  { listeners := s.listeners ++ [s.nextHandlerId],
    current := some s.nextHandlerId,
    nextHandlerId := s.nextHandlerId + 1 }

/-- Translation of the body of the `getSingle('keyBindSet')` continuation in
`bindToggleSidePanel` (video.ts lines 23-41).  The continuation runs to
completion on one event-loop turn: it first releases the previously
installed handler, then installs the new one. -/
def bindToggleSidePanel (s : KeyBinderState) : KeyBinderState :=
  installToggleSidePanel (releaseToggleSidePanel s)

/-- State after `n` completed installs (settings-updated events whose
`getSingle` continuations have run, in order). -/
def runToggleSidePanelInstalls : Nat → KeyBinderState
  | 0 => initKeyBinderState
  | n + 1 => bindToggleSidePanel (runToggleSidePanelInstalls n)

/-- Subtitle record as read by `surroundingSubtitles`: only `start` is
inspected; `text` stands for the rest of the payload. -/
structure Subtitle where
  start : Int
  text : String
deriving DecidableEq, Repr

/-- Translation of `atBoundary` (part_000 lines 37-52).  `next` is the
neighbour in the walking direction (`null` at the array edge); the boundary
holds when the walked distance reaches `countRadius` and the neighbour is
absent or at least `timeRadius` away in start time. -/
def atBoundary (subtitles : List Subtitle) (index initialIndex : Nat)
    (countRadius timeRadius : Int) (sign : Bool) : Bool :=
  let next : Option Subtitle :=
    if sign then
      if index + 1 < subtitles.length then subtitles.get? (index + 1) else none
    else
      if index ≥ 1 then subtitles.get? (index - 1) else none
  let initial := (subtitles.get? initialIndex).getD ⟨0, ""⟩
  decide (|(initialIndex : Int) - (index : Int)| ≥ countRadius) &&
    match next with
    | none => true
    | some nx => decide (|nx.start - initial.start| ≥ timeRadius)

/-- Translation of the first loop of `surroundingSubtitles` (part_000 lines
18-24): walk `i` from `index` down to `0`, assigning `startIndex = i` each
iteration and breaking at the first boundary; if no boundary is met the loop
exhausts with `startIndex = 0`. -/
def findStartIndex (subtitles : List Subtitle) (initialIndex : Nat)
    (countRadius timeRadius : Int) : Nat → Nat
  | 0 => 0
  | i + 1 =>
    if atBoundary subtitles (i + 1) initialIndex countRadius timeRadius false then
      i + 1
    else
      findStartIndex subtitles initialIndex countRadius timeRadius i

/-- Translation of the second loop of `surroundingSubtitles` (part_000 lines
26-32): walk `i` upward from `index` while `i ≤ subtitles.length - 1`,
assigning `endIndex = i` each iteration and breaking at the first boundary.
`remaining` counts the iterations left after the current one, i.e.
`subtitles.length - 1 - i`. -/
def findEndIndex (subtitles : List Subtitle) (initialIndex : Nat)
    (countRadius timeRadius : Int) : Nat → Nat → Nat
  | 0, i => i
  | remaining + 1, i =>
    if atBoundary subtitles i initialIndex countRadius timeRadius true then
      i
    else
      findEndIndex subtitles initialIndex countRadius timeRadius remaining (i + 1)

/-- Translation of `surroundingSubtitles` (part_000 lines 14-35):
`subtitles.slice(startIndex, endIndex + 1)`. -/
def surroundingSubtitles (subtitles : List Subtitle) (index : Nat)
    (countRadius timeRadius : Int) : List Subtitle :=
  let startIndex := findStartIndex subtitles index countRadius timeRadius index
  let endIndex :=
    findEndIndex subtitles index countRadius timeRadius (subtitles.length - 1 - index) index
  (subtitles.drop startIndex).take (endIndex + 1 - startIndex)

/-- C2: a crop-and-resize envelope with no `frameId` passes its `rect` to the
`cropAndResize` transform unchanged; with a `frameId` registered in the frame
registry, the rect passed to the transform is translated by the registered
iframe's bounding-rect `left`/`top`, with `width`/`height` unchanged. -/
theorem C2_crop_rect_translation (registry : Option (Nat → Option Rect))
    (m : Nat → Option Rect) (fid : Nat) (iframeRect : Rect)
    (maxWidth maxHeight : Int) (rect : Rect) (dataUrl : String) (src : Option String)
    (h1 : registry = some m) (h2 : m fid = some iframeRect) :
    messageListener true registry
        ⟨"asbplayer-extension-to-video",
         .cropAndResize maxWidth maxHeight rect dataUrl none, src⟩
      = ([.dispatchCropAndResize maxWidth maxHeight rect dataUrl], true)
    ∧ messageListener true registry
        ⟨"asbplayer-extension-to-video",
         .cropAndResize maxWidth maxHeight rect dataUrl (some fid), src⟩
      = ([.dispatchCropAndResize maxWidth maxHeight
            ⟨rect.left + iframeRect.left, rect.top + iframeRect.top,
             rect.width, rect.height⟩ dataUrl], true) := by
  subst h1
  simp [messageListener, h2]

/-- Witness for C2 at a concrete registry, frame id and rect. -/
theorem C2_crop_rect_translation_witness :
    (some (fun fid => if fid = 7 then some (⟨10, 20, 300, 400⟩ : Rect) else none)
        = some (fun fid => if fid = 7 then some (⟨10, 20, 300, 400⟩ : Rect) else none))
    ∧ ((fun fid => if fid = 7 then some (⟨10, 20, 300, 400⟩ : Rect) else none) 7
        = some (⟨10, 20, 300, 400⟩ : Rect))
    ∧ (messageListener true
          (some fun fid => if fid = 7 then some (⟨10, 20, 300, 400⟩ : Rect) else none)
          ⟨"asbplayer-extension-to-video",
           .cropAndResize 100 200 ⟨1, 2, 3, 4⟩ "data:u" none, none⟩
        = ([.dispatchCropAndResize 100 200 ⟨1, 2, 3, 4⟩ "data:u"], true)
      ∧ messageListener true
          (some fun fid => if fid = 7 then some (⟨10, 20, 300, 400⟩ : Rect) else none)
          ⟨"asbplayer-extension-to-video",
           .cropAndResize 100 200 ⟨1, 2, 3, 4⟩ "data:u" (some 7), none⟩
        = ([.dispatchCropAndResize 100 200 ⟨11, 22, 3, 4⟩ "data:u"], true)) :=
  ⟨rfl, rfl,
   C2_crop_rect_translation
     (some fun fid => if fid = 7 then some (⟨10, 20, 300, 400⟩ : Rect) else none)
     (fun fid => if fid = 7 then some (⟨10, 20, 300, 400⟩ : Rect) else none)
     7 ⟨10, 20, 300, 400⟩ 100 200 ⟨1, 2, 3, 4⟩ "data:u" none rfl rfl⟩

/-- C3: an envelope whose sender is not `asbplayer-extension-to-video`, or an
envelope delivered to a non-root (iframe) document, produces no effect at all
and the listener just returns. -/
theorem C3_listener_gates (isParentDocument : Bool)
    (registry : Option (Nat → Option Rect)) (request : CommandEnvelope)
    (h : isParentDocument = false ∨ request.sender ≠ "asbplayer-extension-to-video") :
    messageListener isParentDocument registry request = ([], false) := by
  rcases h with h | h
  · subst h
    simp [messageListener]
  · cases isParentDocument
    · simp [messageListener]
    · simp [messageListener, h]

/-- Witness for C3: a well-formed settings-updated envelope with a wrong
sender in a root document, and the same envelope in an iframe document. -/
theorem C3_listener_gates_witness :
    ((false = false ∨ ("asbplayer-video-tab" : String) ≠ "asbplayer-extension-to-video")
      ∧ messageListener true none ⟨"asbplayer-video-tab", .settingsUpdated, none⟩ = ([], false))
    ∧ ((false = false ∨ ("asbplayer-extension-to-video" : String) ≠ "asbplayer-extension-to-video")
      ∧ messageListener false none ⟨"asbplayer-extension-to-video", .settingsUpdated, none⟩
          = ([], false)) :=
  ⟨⟨Or.inr (by decide),
    C3_listener_gates true none ⟨"asbplayer-video-tab", .settingsUpdated, none⟩
      (Or.inr (by decide))⟩,
   ⟨Or.inl rfl,
    C3_listener_gates false none ⟨"asbplayer-extension-to-video", .settingsUpdated, none⟩
      (Or.inl rfl)⟩⟩

/-- C4: a crop-and-resize envelope whose `frameId` is not registered (either
no frame-info listener exists, or the id is absent from `iframesById`) still
dispatches the transform with the original untranslated rect and still
returns `true`, signalling the asynchronous response. -/
theorem C4_unregistered_frameId_degrades (registry : Option (Nat → Option Rect))
    (fid : Nat) (maxWidth maxHeight : Int) (rect : Rect) (dataUrl : String)
    (src : Option String)
    (h : registry.bind (fun m => m fid) = none) :
    messageListener true registry
        ⟨"asbplayer-extension-to-video",
         .cropAndResize maxWidth maxHeight rect dataUrl (some fid), src⟩
      = ([.dispatchCropAndResize maxWidth maxHeight rect dataUrl], true) := by
  simp [messageListener, h]

/-- Witness for C4 with no frame-info listener at all. -/
theorem C4_unregistered_frameId_degrades_witness :
    ((none : Option (Nat → Option Rect)).bind (fun m => m 3) = none
    ∧ messageListener true none
        ⟨"asbplayer-extension-to-video",
         .cropAndResize 50 60 ⟨1, 2, 3, 4⟩ "data:u" (some 3), none⟩
      = ([.dispatchCropAndResize 50 60 ⟨1, 2, 3, 4⟩ "data:u"], true)) :=
  ⟨rfl, C4_unregistered_frameId_degrades none 3 50 60 ⟨1, 2, 3, 4⟩ "data:u" none rfl⟩

/-- C7: in a child document, at the end of every discovery tick the frame
info broadcaster is bound exactly when the post-reconciliation binding set is
non-empty, regardless of the broadcaster's previous state. -/
theorem C7_broadcaster_tracks_bindings (shouldIgnore : VideoElement → Bool)
    (videoElements : List VideoElement) (s : DiscoveryState) (broadcasterBound : Bool) :
    (tickWithBroadcaster true shouldIgnore videoElements (s, broadcasterBound)).2
      = !(tickWithBroadcaster true shouldIgnore videoElements (s, broadcasterBound)).1.bindings.isEmpty := by
  have hstep : tickWithBroadcaster true shouldIgnore videoElements (s, broadcasterBound)
      = (bindToVideoElements shouldIgnore videoElements s,
         updateBroadcaster true (bindToVideoElements shouldIgnore videoElements s)
           broadcasterBound) := rfl
  rw [hstep]
  unfold updateBroadcaster
  cases h : (bindToVideoElements shouldIgnore videoElements s).bindings <;> simp [h]

/-- C8 counterexample: a failed fetch of the data URL is not caught anywhere
in the copy-to-clipboard promise chain, so the chain settles rejected — the
rejection escapes as an unhandled rejection rather than being dropped or
logged. -/
theorem C8_clipboard_counterexample :
    copyToClipboardChain (.err "network error") (fun r => .ok r) (fun _ => .ok ())
      = .err "network error" := rfl

/-- C8 amended: the message listener itself returns normally on every
copy-to-clipboard envelope, and clipboard-write failures are caught by the
chain's `catch` (logged, never escaping); but a failure of the fetch itself
or of the blob read is not handled and escapes the chain as a rejection. -/
theorem C8_clipboard_error_handling :
    (∀ (response blob : String) (clipboardWrite : String → PromiseResult Unit),
        copyToClipboardChain (.ok response) (fun _ => .ok blob) clipboardWrite = .ok ())
    ∧ (∀ (e : String) (toBlob : String → PromiseResult String)
          (clipboardWrite : String → PromiseResult Unit),
        copyToClipboardChain (.err e) toBlob clipboardWrite = .err e)
    ∧ (∀ (response e : String) (clipboardWrite : String → PromiseResult Unit),
        copyToClipboardChain (.ok response) (fun _ => .err e) clipboardWrite = .err e)
    ∧ (∀ (registry : Option (Nat → Option Rect)) (dataUrl : String) (src : Option String),
        messageListener true registry
            ⟨"asbplayer-extension-to-video", .copyToClipboard dataUrl, src⟩
          = ([.fetchAndWriteClipboard dataUrl], false)) := by
  refine ⟨?_, ?_, ?_, ?_⟩
  · intro response blob clipboardWrite
    cases h : clipboardWrite blob <;>
      simp [copyToClipboardChain, promiseThen, promiseCatch, h]
  · intro e toBlob clipboardWrite
    rfl
  · intro response e clipboardWrite
    rfl
  · intro registry dataUrl src
    simp [messageListener]

/-- C9: handling the crop-and-resize rect never mutates the envelope's rect
object: with the rect heap made explicit, the store cell holding the
message's rect is untouched whether or not a frame translation applies, and
the rect handed to the transform (a fresh cell when translating) carries the
translated coordinates. -/
theorem C9_envelope_rect_unmutated (store : Nat → Rect) (freshAddr msgRectAddr : Nat)
    (registeredIframeRect : Option Rect)
    (h : freshAddr ≠ msgRectAddr) :
    (handleCropRectStore store freshAddr msgRectAddr registeredIframeRect).1 msgRectAddr
        = store msgRectAddr
    ∧ (handleCropRectStore store freshAddr msgRectAddr registeredIframeRect).1
        (handleCropRectStore store freshAddr msgRectAddr registeredIframeRect).2
      = (match registeredIframeRect with
         | none => store msgRectAddr
         | some iframeRect =>
           ⟨(store msgRectAddr).left + iframeRect.left,
            (store msgRectAddr).top + iframeRect.top,
            (store msgRectAddr).width, (store msgRectAddr).height⟩) := by
  cases registeredIframeRect with
  | none => exact ⟨rfl, rfl⟩
  | some iframeRect =>
    constructor
    · have hne : ¬ msgRectAddr = freshAddr := fun hc => h hc.symm
      simp [handleCropRectStore, hne]
    · simp [handleCropRectStore]

/-- Witness for C9 at a concrete store, fresh address and iframe rect. -/
theorem C9_envelope_rect_unmutated_witness :
    ((1 : Nat) ≠ 0
    ∧ ((handleCropRectStore (fun _ => ⟨1, 2, 3, 4⟩) 1 0 (some ⟨10, 20, 0, 0⟩)).1 0
          = (fun _ => (⟨1, 2, 3, 4⟩ : Rect)) 0
      ∧ (handleCropRectStore (fun _ => ⟨1, 2, 3, 4⟩) 1 0 (some ⟨10, 20, 0, 0⟩)).1
          (handleCropRectStore (fun _ => ⟨1, 2, 3, 4⟩) 1 0 (some ⟨10, 20, 0, 0⟩)).2
        = (match (some (⟨10, 20, 0, 0⟩ : Rect)) with
           | none => (fun _ => (⟨1, 2, 3, 4⟩ : Rect)) 0
           | some iframeRect =>
             ⟨((fun _ => (⟨1, 2, 3, 4⟩ : Rect)) 0).left + iframeRect.left,
              ((fun _ => (⟨1, 2, 3, 4⟩ : Rect)) 0).top + iframeRect.top,
              ((fun _ => (⟨1, 2, 3, 4⟩ : Rect)) 0).width,
              ((fun _ => (⟨1, 2, 3, 4⟩ : Rect)) 0).height⟩))) :=
  ⟨by decide,
   C9_envelope_rect_unmutated (fun _ => ⟨1, 2, 3, 4⟩) 1 0 (some ⟨10, 20, 0, 0⟩)
     (by decide)⟩

/-- State after `n + 1` completed side-panel installs: exactly the newest
handler is registered, the stored unbind closure targets it, and handler ids
count up. -/
theorem runToggleSidePanelInstalls_succ (n : Nat) :
    runToggleSidePanelInstalls (n + 1) = ⟨[n], some n, n + 1⟩ := by
  induction n with
  | zero => rfl
  | succ m ih =>
    show bindToggleSidePanel (runToggleSidePanelInstalls (m + 1)) = _
    rw [ih]
    simp [bindToggleSidePanel, releaseToggleSidePanel, installToggleSidePanel,
      List.erase]

/-- C6: after every completed install sequence at most one side-panel toggle
handler is registered; the previously installed handler is released before
the new one is installed (between release and install the listener set is
empty); and after `n + 1` installs exactly the newest handler `n` is the one
left active, so no older handler can still fire. -/
theorem C6_single_toggle_binding (n : Nat) :
    (runToggleSidePanelInstalls n).listeners.length ≤ 1
    ∧ (releaseToggleSidePanel (runToggleSidePanelInstalls n)).listeners = []
    ∧ (runToggleSidePanelInstalls (n + 1)).listeners = [n] := by
  refine ⟨?_, ?_, ?_⟩
  · cases n with
    | zero => decide
    | succ m => rw [runToggleSidePanelInstalls_succ]; rfl
  · cases n with
    | zero => decide
    | succ m =>
      rw [runToggleSidePanelInstalls_succ]
      simp [releaseToggleSidePanel, List.erase]
  · rw [runToggleSidePanelInstalls_succ]

/-- The backward boundary walk never moves past its starting index. -/
theorem findStartIndex_le (subtitles : List Subtitle) (initialIndex : Nat)
    (countRadius timeRadius : Int) :
    ∀ i, findStartIndex subtitles initialIndex countRadius timeRadius i ≤ i := by
  intro i
  induction i with
  | zero => exact Nat.le_refl 0
  | succ m ih =>
    unfold findStartIndex
    split
    · exact Nat.le_refl _
    · exact Nat.le_trans ih (Nat.le_succ m)

/-- The forward boundary walk starts at its starting index and advances at
most `remaining` steps. -/
theorem findEndIndex_bounds (subtitles : List Subtitle) (initialIndex : Nat)
    (countRadius timeRadius : Int) :
    ∀ remaining i,
      i ≤ findEndIndex subtitles initialIndex countRadius timeRadius remaining i
      ∧ findEndIndex subtitles initialIndex countRadius timeRadius remaining i
          ≤ i + remaining := by
  intro remaining
  induction remaining with
  | zero => intro i; exact ⟨Nat.le_refl i, Nat.le_refl i⟩
  | succ r ih =>
    intro i
    unfold findEndIndex
    split
    · exact ⟨Nat.le_refl i, Nat.le_add_right i (r + 1)⟩
    · obtain ⟨h1, h2⟩ := ih (i + 1)
      exact ⟨Nat.le_trans (Nat.le_succ i) h1, by omega⟩

/-- C10: for every subtitle array and in-range index, `surroundingSubtitles`
returns a contiguous slice `subtitles[startIndex .. endIndex]` with
`startIndex ≤ index ≤ endIndex < subtitles.length`; in particular the result
is non-empty and contains `subtitles[index]`, for all radii. -/
theorem C10_surrounding_contains_index (subtitles : List Subtitle) (index : Nat)
    (countRadius timeRadius : Int) (h : index < subtitles.length) :
    ∃ startIndex endIndex,
      startIndex ≤ index ∧ index ≤ endIndex ∧ endIndex < subtitles.length
      ∧ surroundingSubtitles subtitles index countRadius timeRadius
          = (subtitles.drop startIndex).take (endIndex + 1 - startIndex)
      ∧ subtitles.getD index ⟨0, ""⟩
          ∈ surroundingSubtitles subtitles index countRadius timeRadius
      ∧ surroundingSubtitles subtitles index countRadius timeRadius ≠ [] := by
  refine ⟨findStartIndex subtitles index countRadius timeRadius index,
          findEndIndex subtitles index countRadius timeRadius
            (subtitles.length - 1 - index) index, ?_, ?_, ?_, rfl, ?_, ?_⟩
  case _ => exact findStartIndex_le subtitles index countRadius timeRadius index
  case _ =>
    exact (findEndIndex_bounds subtitles index countRadius timeRadius
      (subtitles.length - 1 - index) index).1
  case _ =>
    have := (findEndIndex_bounds subtitles index countRadius timeRadius
      (subtitles.length - 1 - index) index).2
    omega
  all_goals {
    have hs := findStartIndex_le subtitles index countRadius timeRadius index
    have he := findEndIndex_bounds subtitles index countRadius timeRadius
      (subtitles.length - 1 - index) index
    have hkey : (surroundingSubtitles subtitles index countRadius timeRadius)[index -
        findStartIndex subtitles index countRadius timeRadius index]? = subtitles[index]? := by
      show (((subtitles.drop (findStartIndex subtitles index countRadius timeRadius index)).take
        (findEndIndex subtitles index countRadius timeRadius
          (subtitles.length - 1 - index) index + 1
          - findStartIndex subtitles index countRadius timeRadius index)))[_]? = _
      rw [List.getElem?_take_of_lt (by omega), List.getElem?_drop,
        Nat.add_sub_cancel' hs]
    have hsome : subtitles[index]? = some subtitles[index] :=
      (List.getElem?_eq_some_getElem_iff subtitles index h).mpr trivial
    have hmem : subtitles[index] ∈ surroundingSubtitles subtitles index countRadius timeRadius := by
      have := List.getElem?_eq_some.mp (hkey.trans hsome)
      obtain ⟨hlt, he2⟩ := this
      exact he2 ▸ List.getElem_mem hlt
    have hgetD : subtitles.getD index ⟨0, ""⟩ = subtitles[index] := by
      rw [List.getD_eq_getElem?_getD, hsome]
      rfl
    first
    | exact hgetD ▸ hmem
    | exact fun hnil => by simp [hnil] at hmem
  }

/-- Witness for C10 at a concrete two-element subtitle list. -/
theorem C10_surrounding_contains_index_witness :
    1 < ([⟨0, "a"⟩, ⟨5, "b"⟩] : List Subtitle).length
    ∧ ∃ startIndex endIndex,
        startIndex ≤ 1 ∧ 1 ≤ endIndex
        ∧ endIndex < ([⟨0, "a"⟩, ⟨5, "b"⟩] : List Subtitle).length
        ∧ surroundingSubtitles [⟨0, "a"⟩, ⟨5, "b"⟩] 1 1 3
            = (([⟨0, "a"⟩, ⟨5, "b"⟩] : List Subtitle).drop startIndex).take
                (endIndex + 1 - startIndex)
        ∧ ([⟨0, "a"⟩, ⟨5, "b"⟩] : List Subtitle).getD 1 ⟨0, ""⟩
            ∈ surroundingSubtitles [⟨0, "a"⟩, ⟨5, "b"⟩] 1 1 3
        ∧ surroundingSubtitles [⟨0, "a"⟩, ⟨5, "b"⟩] 1 1 3 ≠ [] :=
  ⟨by decide, C10_surrounding_contains_index [⟨0, "a"⟩, ⟨5, "b"⟩] 1 1 3 (by decide)⟩

/-- The duplicate check of the discovery loop is exact: it fires precisely
when some tracked binding already wraps the node. -/
theorem bindingExistsFor_iff (bindings : List (Nat × Nat)) (nodeId : Nat) :
    bindingExistsFor bindings nodeId = true ↔ nodeId ∈ bindings.map Prod.snd := by
  unfold bindingExistsFor
  rw [decide_eq_true_iff]
  constructor
  · intro hlen
    have hne : (bindings.filter fun b => b.2 == nodeId) ≠ [] := by
      intro hnil
      rw [hnil] at hlen
      simp at hlen
    obtain ⟨b, hb⟩ := List.exists_mem_of_ne_nil _ hne
    obtain ⟨hmem, hbe⟩ := List.mem_filter.mp hb
    exact List.mem_map.mpr ⟨b, hmem, by simpa using hbe⟩
  · intro h
    obtain ⟨b, hb, hbe⟩ := List.mem_map.mp h
    exact List.length_pos_of_mem (List.mem_filter.mpr ⟨hb, by simp [hbe]⟩)

/-- Membership in the bindings array after the addition pass: a node is
tracked afterwards iff it was tracked before, or some enumerated element has
that identity, a valid source, and is not ignored. -/
theorem mem_addVideoBindings (shouldIgnore : VideoElement → Bool) :
    ∀ (videoElements : List VideoElement) (s : DiscoveryState) (id : Nat),
      id ∈ (addVideoBindings shouldIgnore videoElements s).bindings.map Prod.snd ↔
        (id ∈ s.bindings.map Prod.snd
          ∨ ∃ v ∈ videoElements,
              v.nodeId = id ∧ hasValidVideoSource v = true ∧ shouldIgnore v = false) := by
  intro videoElements
  induction videoElements with
  | nil => intro s id; simp [addVideoBindings]
  | cons videoElement rest ih =>
    intro s id
    unfold addVideoBindings
    by_cases hcond :
        (!bindingExistsFor s.bindings videoElement.nodeId
          && hasValidVideoSource videoElement && !shouldIgnore videoElement) = true
    · rw [if_pos hcond, ih]
      obtain ⟨⟨hbe, hv⟩, hig⟩ :
          (bindingExistsFor s.bindings videoElement.nodeId = false
            ∧ hasValidVideoSource videoElement = true)
          ∧ shouldIgnore videoElement = false := by
        simpa [Bool.and_eq_true, Bool.not_eq_true'] using hcond
      constructor
      · rintro (hmem | ⟨v, hv1, hv2, hv3, hv4⟩)
        · rw [List.map_append, List.mem_append] at hmem
          rcases hmem with hs | hnew
          · exact Or.inl hs
          · refine Or.inr ⟨videoElement, List.mem_cons_self _ _, ?_, hv, hig⟩
            have : id = videoElement.nodeId := by simpa using hnew
            exact this.symm
        · exact Or.inr ⟨v, List.mem_cons_of_mem _ hv1, hv2, hv3, hv4⟩
      · rintro (hs | ⟨v, hv1, hv2, hv3, hv4⟩)
        · exact Or.inl (by rw [List.map_append, List.mem_append]; exact Or.inl hs)
        · rcases List.mem_cons.mp hv1 with hveq | hvrest
          · subst hveq
            exact Or.inl (by rw [List.map_append, List.mem_append]; simp [hv2])
          · exact Or.inr ⟨v, hvrest, hv2, hv3, hv4⟩
    · rw [if_neg hcond, ih]
      have hneg : bindingExistsFor s.bindings videoElement.nodeId = true
          ∨ hasValidVideoSource videoElement = false
          ∨ shouldIgnore videoElement = true := by
        by_cases hb : bindingExistsFor s.bindings videoElement.nodeId = true
        · exact Or.inl hb
        · have hb2 : bindingExistsFor s.bindings videoElement.nodeId = false :=
            Bool.eq_false_iff.mpr hb
          by_cases hw : hasValidVideoSource videoElement = true
          · by_cases hg : shouldIgnore videoElement = true
            · exact Or.inr (Or.inr hg)
            · have hg2 : shouldIgnore videoElement = false := Bool.eq_false_iff.mpr hg
              exact absurd (by simp [hb2, hw, hg2]) hcond
          · exact Or.inr (Or.inl (Bool.eq_false_iff.mpr hw))
      constructor
      · rintro (hs | ⟨v, hv1, hv2, hv3, hv4⟩)
        · exact Or.inl hs
        · exact Or.inr ⟨v, List.mem_cons_of_mem _ hv1, hv2, hv3, hv4⟩
      · rintro (hs | ⟨v, hv1, hv2, hv3, hv4⟩)
        · exact Or.inl hs
        · rcases List.mem_cons.mp hv1 with hveq | hvrest
          · subst hveq
            rcases hneg with hb | hw | hg
            · exact Or.inl (hv2 ▸ (bindingExistsFor_iff s.bindings v.nodeId).mp hb)
            · exact absurd hv3 (by simp [hw])
            · exact absurd hv4 (by simp [hg])
          · exact Or.inr ⟨v, hvrest, hv2, hv3, hv4⟩

/-- The addition pass never introduces two bindings for the same node. -/
theorem nodup_addVideoBindings (shouldIgnore : VideoElement → Bool) :
    ∀ (videoElements : List VideoElement) (s : DiscoveryState),
      (s.bindings.map Prod.snd).Nodup →
      ((addVideoBindings shouldIgnore videoElements s).bindings.map Prod.snd).Nodup := by
  intro videoElements
  induction videoElements with
  | nil => intro s h; simpa [addVideoBindings] using h
  | cons videoElement rest ih =>
    intro s h
    unfold addVideoBindings
    by_cases hcond :
        (!bindingExistsFor s.bindings videoElement.nodeId
          && hasValidVideoSource videoElement && !shouldIgnore videoElement) = true
    · rw [if_pos hcond]
      refine ih _ ?_
      obtain ⟨⟨hbe, hv⟩, hig⟩ :
          (bindingExistsFor s.bindings videoElement.nodeId = false
            ∧ hasValidVideoSource videoElement = true)
          ∧ shouldIgnore videoElement = false := by
        simpa [Bool.and_eq_true, Bool.not_eq_true'] using hcond
      have hnotmem : videoElement.nodeId ∉ s.bindings.map Prod.snd := fun hmem =>
        by simp [(bindingExistsFor_iff s.bindings videoElement.nodeId).mpr hmem] at hbe
      show ((s.bindings ++ [(s.nextSerial, videoElement.nodeId)]).map Prod.snd).Nodup
      rw [List.map_append]
      refine List.Nodup.append h (List.nodup_singleton _) ?_
      intro a ha hb
      rcases List.mem_singleton.mp hb with rfl
      exact hnotmem ha
    · rw [if_neg hcond]
      exact ih s h

/-- The staleness check of the removal sweep is exact: it keeps a binding
precisely when some enumerated element has the binding's node identity and a
valid source. -/
theorem videoElementExistsFor_iff (videoElements : List VideoElement) (b : Nat × Nat) :
    videoElementExistsFor videoElements b = true ↔
      ∃ v ∈ videoElements, v.nodeId = b.2 ∧ hasValidVideoSource v = true := by
  simp [videoElementExistsFor, List.any_eq_true, Bool.and_eq_true]

/-- The addition pass only ever tracks nodes the page delegate does not
ignore, provided the delegate's verdict depends only on node identity. -/
theorem inv_addVideoBindings (shouldIgnore : VideoElement → Bool)
    (hstable : ∀ v w : VideoElement, v.nodeId = w.nodeId → shouldIgnore v = shouldIgnore w) :
    ∀ (videoElements : List VideoElement) (s : DiscoveryState),
      (∀ p ∈ s.bindings, ∀ w : VideoElement, w.nodeId = p.2 → shouldIgnore w = false) →
      ∀ p ∈ (addVideoBindings shouldIgnore videoElements s).bindings,
        ∀ w : VideoElement, w.nodeId = p.2 → shouldIgnore w = false := by
  intro videoElements
  induction videoElements with
  | nil => intro s h; simpa [addVideoBindings] using h
  | cons videoElement rest ih =>
    intro s h
    unfold addVideoBindings
    by_cases hcond :
        (!bindingExistsFor s.bindings videoElement.nodeId
          && hasValidVideoSource videoElement && !shouldIgnore videoElement) = true
    · rw [if_pos hcond]
      obtain ⟨⟨hbe, hv⟩, hig⟩ :
          (bindingExistsFor s.bindings videoElement.nodeId = false
            ∧ hasValidVideoSource videoElement = true)
          ∧ shouldIgnore videoElement = false := by
        simpa [Bool.and_eq_true, Bool.not_eq_true'] using hcond
      refine ih _ ?_
      intro p hp w hw
      rcases List.mem_append.mp hp with hold | hnew
      · exact h p hold w hw
      · rcases List.mem_singleton.mp hnew with rfl
        rw [hstable w videoElement (by simpa using hw)]
        exact hig
    · rw [if_neg hcond]
      exact ih s h

/-- One reconciliation pass keeps the tracked node set duplicate-free. -/
theorem nodup_bindToVideoElements (shouldIgnore : VideoElement → Bool)
    (videoElements : List VideoElement) (s : DiscoveryState)
    (hnd : (s.bindings.map Prod.snd).Nodup) :
    ((bindToVideoElements shouldIgnore videoElements s).bindings.map Prod.snd).Nodup := by
  have hadd := nodup_addVideoBindings shouldIgnore videoElements s hnd
  have hsub :
      ((bindToVideoElements shouldIgnore videoElements s).bindings.map Prod.snd).Sublist
        ((addVideoBindings shouldIgnore videoElements s).bindings.map Prod.snd) :=
    (List.filter_sublist _).map _
  exact hsub.nodup hadd

/-- One reconciliation pass preserves the not-ignored invariant of the
tracked set. -/
theorem inv_bindToVideoElements (shouldIgnore : VideoElement → Bool)
    (hstable : ∀ v w : VideoElement, v.nodeId = w.nodeId → shouldIgnore v = shouldIgnore w)
    (videoElements : List VideoElement) (s : DiscoveryState)
    (hinv : ∀ p ∈ s.bindings, ∀ w : VideoElement, w.nodeId = p.2 → shouldIgnore w = false) :
    ∀ p ∈ (bindToVideoElements shouldIgnore videoElements s).bindings,
      ∀ w : VideoElement, w.nodeId = p.2 → shouldIgnore w = false := by
  intro p hp
  exact inv_addVideoBindings shouldIgnore hstable videoElements s hinv p
    (List.mem_filter.mp hp).1

/-- Main single-tick lemma: starting from a duplicate-free tracked set whose
nodes the delegate does not ignore, one reconciliation pass leaves the
tracked node set a permutation of the valid, non-ignored enumerated
elements. -/
theorem tick_bindings_perm (shouldIgnore : VideoElement → Bool)
    (videoElements : List VideoElement) (s : DiscoveryState)
    (hnd : (s.bindings.map Prod.snd).Nodup)
    (hinv : ∀ p ∈ s.bindings, ∀ w : VideoElement, w.nodeId = p.2 → shouldIgnore w = false)
    (hdom : (videoElements.map VideoElement.nodeId).Nodup) :
    ((bindToVideoElements shouldIgnore videoElements s).bindings.map Prod.snd).Perm
      ((videoElements.filter fun v => hasValidVideoSource v && !shouldIgnore v).map
        VideoElement.nodeId) := by
  have d1 := nodup_bindToVideoElements shouldIgnore videoElements s hnd
  have d2 :
      ((videoElements.filter fun v => hasValidVideoSource v && !shouldIgnore v).map
        VideoElement.nodeId).Nodup :=
    (((List.filter_sublist videoElements).map VideoElement.nodeId).nodup) hdom
  refine (List.perm_ext_iff_of_nodup d1 d2).mpr ?_
  intro a
  constructor
  · intro ha
    obtain ⟨p, hpf, hpa⟩ := List.mem_map.mp ha
    obtain ⟨hpadd, hkeep⟩ := List.mem_filter.mp hpf
    obtain ⟨v0, hv0dom, hv0id, hv0valid⟩ :=
      (videoElementExistsFor_iff videoElements p).mp hkeep
    have haadd : a ∈ (addVideoBindings shouldIgnore videoElements s).bindings.map Prod.snd :=
      List.mem_map.mpr ⟨p, hpadd, hpa⟩
    rcases (mem_addVideoBindings shouldIgnore videoElements s a).mp haadd with hs | hnew
    · obtain ⟨q, hq, hqa⟩ := List.mem_map.mp hs
      have hig0 : shouldIgnore v0 = false :=
        hinv q hq v0 (by rw [hv0id, hpa, hqa])
      exact List.mem_map.mpr
        ⟨v0, List.mem_filter.mpr ⟨hv0dom, by simp [hv0valid, hig0]⟩, hv0id.trans hpa⟩
    · obtain ⟨v1, hv1dom, hv1id, hv1valid, hv1ig⟩ := hnew
      exact List.mem_map.mpr
        ⟨v1, List.mem_filter.mpr ⟨hv1dom, by simp [hv1valid, hv1ig]⟩, hv1id⟩
  · intro ha
    obtain ⟨v, hvf, hva⟩ := List.mem_map.mp ha
    obtain ⟨hvdom, hq⟩ := List.mem_filter.mp hvf
    obtain ⟨hvvalid, hvig⟩ : hasValidVideoSource v = true ∧ shouldIgnore v = false := by
      simpa [Bool.and_eq_true, Bool.not_eq_true'] using hq
    have haadd : a ∈ (addVideoBindings shouldIgnore videoElements s).bindings.map Prod.snd :=
      (mem_addVideoBindings shouldIgnore videoElements s a).mpr
        (Or.inr ⟨v, hvdom, hva, hvvalid, hvig⟩)
    obtain ⟨p, hpadd, hpa⟩ := List.mem_map.mp haadd
    have hkeep : videoElementExistsFor videoElements p = true :=
      (videoElementExistsFor_iff videoElements p).mpr
        ⟨v, hvdom, by rw [hva, hpa], hvvalid⟩
    exact List.mem_map.mpr ⟨p, List.mem_filter.mpr ⟨hpadd, hkeep⟩, hpa⟩

/-- Both discovery invariants hold of the state produced by any run of
startup pass plus discovery ticks. -/
theorem runTicks_inv (shouldIgnore : VideoElement → Bool)
    (hstable : ∀ v w : VideoElement, v.nodeId = w.nodeId → shouldIgnore v = shouldIgnore w)
    (doms : List (List VideoElement)) :
    ((runTicks shouldIgnore doms).bindings.map Prod.snd).Nodup
    ∧ ∀ p ∈ (runTicks shouldIgnore doms).bindings,
        ∀ w : VideoElement, w.nodeId = p.2 → shouldIgnore w = false := by
  have aux : ∀ (ds : List (List VideoElement)) (s : DiscoveryState),
      (s.bindings.map Prod.snd).Nodup →
      (∀ p ∈ s.bindings, ∀ w : VideoElement, w.nodeId = p.2 → shouldIgnore w = false) →
      ((ds.foldl (fun s2 dom => bindToVideoElements shouldIgnore dom s2) s).bindings.map
        Prod.snd).Nodup
      ∧ ∀ p ∈ (ds.foldl (fun s2 dom => bindToVideoElements shouldIgnore dom s2) s).bindings,
          ∀ w : VideoElement, w.nodeId = p.2 → shouldIgnore w = false := by
    intro ds
    induction ds with
    | nil => intro s h1 h2; exact ⟨h1, h2⟩
    | cons dom rest ih =>
      intro s h1 h2
      exact ih _ (nodup_bindToVideoElements shouldIgnore dom s h1)
        (inv_bindToVideoElements shouldIgnore hstable dom s h2)
  exact aux doms initState (by simp [initState]) (by intro p hp; simp [initState] at hp)

/-- C1 counterexample: the claim omits the page delegate's exclusion policy.
With a delegate that ignores every element, a valid video element present at
the startup pass is left untracked, so the tracked set is not the set of
valid elements. -/
theorem C1_reconciliation_counterexample :
    hasValidVideoSource ⟨0, "x", []⟩ = true
    ∧ (runTicks (fun _ => true) [[⟨0, "x", []⟩]]).bindings = [] := by
  constructor
  · rfl
  · rfl

/-- C1 amended: after the startup pass and any sequence of discovery ticks,
the tracked node set is exactly (a permutation of, and duplicate-free) the
set of video elements in the current DOM snapshot that are valid and not
ignored by the page delegate, provided the delegate's verdict depends only
on node identity and node identities in the snapshot are distinct. -/
theorem C1_reconciliation_amended (shouldIgnore : VideoElement → Bool)
    (hstable : ∀ v w : VideoElement, v.nodeId = w.nodeId → shouldIgnore v = shouldIgnore w)
    (doms : List (List VideoElement)) (dom : List VideoElement)
    (hdom : (dom.map VideoElement.nodeId).Nodup) :
    ((runTicks shouldIgnore (doms ++ [dom])).bindings.map Prod.snd).Perm
      ((dom.filter fun v => hasValidVideoSource v && !shouldIgnore v).map
        VideoElement.nodeId)
    ∧ ((runTicks shouldIgnore (doms ++ [dom])).bindings.map Prod.snd).Nodup := by
  have hrun : runTicks shouldIgnore (doms ++ [dom])
      = bindToVideoElements shouldIgnore dom (runTicks shouldIgnore doms) := by
    unfold runTicks
    rw [List.foldl_append]
    rfl
  obtain ⟨h1, h2⟩ := runTicks_inv shouldIgnore hstable doms
  rw [hrun]
  exact ⟨tick_bindings_perm shouldIgnore dom (runTicks shouldIgnore doms) h1 h2 hdom,
    nodup_bindToVideoElements shouldIgnore dom (runTicks shouldIgnore doms) h1⟩

/-- Witness for C1 at a concrete delegate (no exclusions) and a two-element
DOM with one valid and one invalid video element. -/
theorem C1_reconciliation_amended_witness :
    (∀ v w : VideoElement,
        v.nodeId = w.nodeId → (fun _ => false : VideoElement → Bool) v
          = (fun _ => false : VideoElement → Bool) w)
    ∧ (([⟨0, "x", []⟩, ⟨1, "", []⟩] : List VideoElement).map VideoElement.nodeId).Nodup
    ∧ (((runTicks (fun _ => false) ([] ++ [[⟨0, "x", []⟩, ⟨1, "", []⟩]])).bindings.map
          Prod.snd).Perm
        ((([⟨0, "x", []⟩, ⟨1, "", []⟩] : List VideoElement).filter fun v =>
            hasValidVideoSource v && !(fun _ => false : VideoElement → Bool) v).map
          VideoElement.nodeId)
      ∧ ((runTicks (fun _ => false) ([] ++ [[⟨0, "x", []⟩, ⟨1, "", []⟩]])).bindings.map
          Prod.snd).Nodup) :=
  ⟨fun _ _ _ => rfl, by decide,
   C1_reconciliation_amended (fun _ => false) (fun _ _ _ => rfl) []
     [⟨0, "x", []⟩, ⟨1, "", []⟩] (by decide)⟩

/-- Serial bookkeeping through the addition pass: created serials stay below
the counter and duplicate-free, and the created log stays a permutation of
the unbound log plus the live bindings' serials. -/
theorem serialInv_addVideoBindings (shouldIgnore : VideoElement → Bool) :
    ∀ (videoElements : List VideoElement) (s : DiscoveryState),
      (∀ c ∈ s.created, c < s.nextSerial) → s.created.Nodup →
      s.created.Perm (s.unbound ++ s.bindings.map Prod.fst) →
      (∀ c ∈ (addVideoBindings shouldIgnore videoElements s).created,
          c < (addVideoBindings shouldIgnore videoElements s).nextSerial)
      ∧ (addVideoBindings shouldIgnore videoElements s).created.Nodup
      ∧ (addVideoBindings shouldIgnore videoElements s).created.Perm
          ((addVideoBindings shouldIgnore videoElements s).unbound
            ++ (addVideoBindings shouldIgnore videoElements s).bindings.map Prod.fst) := by
  intro videoElements
  induction videoElements with
  | nil => intro s h1 h2 h3; exact ⟨h1, h2, h3⟩
  | cons videoElement rest ih =>
    intro s h1 h2 h3
    unfold addVideoBindings
    by_cases hcond :
        (!bindingExistsFor s.bindings videoElement.nodeId
          && hasValidVideoSource videoElement && !shouldIgnore videoElement) = true
    · rw [if_pos hcond]
      refine ih _ ?_ ?_ ?_
      · intro c hc
        rcases List.mem_append.mp hc with hold | hnewc
        · exact Nat.lt_trans (h1 c hold) (Nat.lt_succ_self _)
        · rcases List.mem_singleton.mp hnewc with rfl
          exact Nat.lt_succ_self _
      · refine List.Nodup.append h2 (List.nodup_singleton _) ?_
        intro c hc hcs
        rcases List.mem_singleton.mp hcs with rfl
        exact Nat.lt_irrefl _ (h1 _ hc)
      · show (s.created ++ [s.nextSerial]).Perm
          (s.unbound ++ (s.bindings ++ [(s.nextSerial, videoElement.nodeId)]).map Prod.fst)
        rw [List.map_append, ← List.append_assoc]
        exact h3.append_right _
    · rw [if_neg hcond]
      exact ih s h1 h2 h3

/-- Serial bookkeeping through the removal sweep: the removed bindings'
serials move from the live set to the unbound log, preserving the
permutation invariant. -/
theorem serialInv_removeStaleBindings (videoElements : List VideoElement)
    (s : DiscoveryState)
    (h1 : ∀ c ∈ s.created, c < s.nextSerial) (h2 : s.created.Nodup)
    (h3 : s.created.Perm (s.unbound ++ s.bindings.map Prod.fst)) :
    (∀ c ∈ (removeStaleBindings videoElements s).created,
        c < (removeStaleBindings videoElements s).nextSerial)
    ∧ (removeStaleBindings videoElements s).created.Nodup
    ∧ (removeStaleBindings videoElements s).created.Perm
        ((removeStaleBindings videoElements s).unbound
          ++ (removeStaleBindings videoElements s).bindings.map Prod.fst) := by
  refine ⟨h1, h2, ?_⟩
  show s.created.Perm
    ((s.unbound ++ (s.bindings.filter fun b =>
        !videoElementExistsFor videoElements b).reverse.map Prod.fst)
      ++ (s.bindings.filter (videoElementExistsFor videoElements)).map Prod.fst)
  have hP : (((s.bindings.filter fun b => !videoElementExistsFor videoElements b).reverse
      ++ s.bindings.filter (videoElementExistsFor videoElements))).Perm s.bindings :=
    (((s.bindings.filter fun b =>
        !videoElementExistsFor videoElements b).reverse_perm).append_right _).trans
      (List.perm_append_comm.trans
        (List.filter_append_perm (videoElementExistsFor videoElements) s.bindings))
  have hPmap :
      ((s.bindings.filter fun b =>
          !videoElementExistsFor videoElements b).reverse.map Prod.fst
        ++ (s.bindings.filter (videoElementExistsFor videoElements)).map Prod.fst).Perm
        (s.bindings.map Prod.fst) := by
    rw [← List.map_append]
    exact hP.map Prod.fst
  rw [List.append_assoc]
  exact h3.trans (hPmap.symm.append_left s.unbound)

/-- C5: over any run of the discovery loop followed by the page-unload
teardown, the multiset of serials whose `unbind()` was called equals the
multiset of Binding instances ever created: `unbind` runs exactly once per
created Binding — never zero times and never twice. -/
theorem C5_unbind_exactly_once (shouldIgnore : VideoElement → Bool)
    (doms : List (List VideoElement)) :
    (unloadBindings (runTicks shouldIgnore doms)).created.Nodup
    ∧ (unloadBindings (runTicks shouldIgnore doms)).unbound.Perm
        (unloadBindings (runTicks shouldIgnore doms)).created
    ∧ ∀ serial : Nat,
        (unloadBindings (runTicks shouldIgnore doms)).unbound.count serial
          = (unloadBindings (runTicks shouldIgnore doms)).created.count serial := by
  have aux : ∀ (ds : List (List VideoElement)) (s : DiscoveryState),
      (∀ c ∈ s.created, c < s.nextSerial) → s.created.Nodup →
      s.created.Perm (s.unbound ++ s.bindings.map Prod.fst) →
      (∀ c ∈ (ds.foldl (fun s2 dom => bindToVideoElements shouldIgnore dom s2) s).created,
          c < (ds.foldl (fun s2 dom => bindToVideoElements shouldIgnore dom s2) s).nextSerial)
      ∧ (ds.foldl (fun s2 dom => bindToVideoElements shouldIgnore dom s2) s).created.Nodup
      ∧ (ds.foldl (fun s2 dom => bindToVideoElements shouldIgnore dom s2) s).created.Perm
          ((ds.foldl (fun s2 dom => bindToVideoElements shouldIgnore dom s2) s).unbound
            ++ (ds.foldl (fun s2 dom => bindToVideoElements shouldIgnore dom s2) s).bindings.map
                Prod.fst) := by
    intro ds
    induction ds with
    | nil => intro s h1 h2 h3; exact ⟨h1, h2, h3⟩
    | cons dom rest ih =>
      intro s h1 h2 h3
      obtain ⟨g1, g2, g3⟩ := serialInv_addVideoBindings shouldIgnore dom s h1 h2 h3
      obtain ⟨k1, k2, k3⟩ :=
        serialInv_removeStaleBindings dom (addVideoBindings shouldIgnore dom s) g1 g2 g3
      exact ih _ k1 k2 k3
  obtain ⟨h1, h2, h3⟩ := aux doms initState
    (by intro c hc; simp [initState] at hc) (by simp [initState]) (by simp [initState])
  have hperm : (unloadBindings (runTicks shouldIgnore doms)).unbound.Perm
      (unloadBindings (runTicks shouldIgnore doms)).created := by
    show ((runTicks shouldIgnore doms).unbound
        ++ (runTicks shouldIgnore doms).bindings.map Prod.fst).Perm
      (runTicks shouldIgnore doms).created
    exact (h3.symm)
  exact ⟨h2, hperm, fun serial => hperm.count_eq serial⟩

end Asbplayer
